import Mathlib

/-!
Verification of the ameliavoice voice-conversation frontend.

This file gives a shallow embedding, in Lean 4, of the parts of the
repository that the specification talks about:

* the voice-activity detector `checkVolume` and the turn pipeline
  `stopRecordingAndSend` of `useVoiceConversation.ts`;
* the streaming transcription client `startStreamingTranscribe` and the
  markdown stripper `stripMarkdownForTTS` of `api/client.ts` /
  `utils/stripMarkdown.ts`;
* the live-event fold `handleLiveMessage` of `VoiceCallDetail.tsx`.

JavaScript numbers are modelled as rationals (`ℚ`), timestamps
(`Date.now()`, `performance.now()`) as natural numbers / rationals, and
strings as Lean `String`.  Stateful hooks become explicit state records
with step functions; each collaborator call result is an explicit input.
-/

/-! ## Voice activity detection (`useVoiceConversation.ts`, `checkVolume`) -/

/-- `const SILENCE_RMS_THRESHOLD = 0.015` — below this = silence. -/
def SILENCE_RMS_THRESHOLD : ℚ := mkRat 15 1000

/-- `const SPEECH_RMS_THRESHOLD = 0.025` — above this = speaking. -/
def SPEECH_RMS_THRESHOLD : ℚ := mkRat 25 1000

/-- `const BARGE_IN_ENABLED = false` — source default for barge-in. -/
def BARGE_IN_ENABLED : Bool := false

/-- `const BARGE_IN_RMS_THRESHOLD = 0.02`. -/
def BARGE_IN_RMS_THRESHOLD : ℚ := mkRat 20 1000

/-- `const SILENCE_MS = 1000` — pause duration that triggers send. -/
def SILENCE_MS : ℕ := 1000

/-- `const MIN_RECORDING_MS = 600` — minimum recording length. -/
def MIN_RECORDING_MS : ℕ := 600

/-- One animation-frame observation: the RMS computed from the analyser
data and the value of `Date.now()` at that tick (in ms). -/
structure Frame where
  rms : ℚ
  t : ℕ
deriving DecidableEq, Repr

/-- The mutable refs read and written by `checkVolume`:
`hasSpokenRef`, `silenceStartRef`, `recordingStartRef` and whether
`currentTTSRef` is non-null. -/
structure VadState where
  hasSpoken : Bool
  silenceStart : Option ℕ
  recordingStart : ℕ
  ttsPlaying : Bool
deriving DecidableEq, Repr

/-- State set up by `startListening` / `restartRecording`:
`recordingStartRef = Date.now()`, `silenceStartRef = null`,
`hasSpokenRef = false`, no TTS audio. -/
def initialVadState (t0 : ℕ) : VadState :=
  { hasSpoken := false, silenceStart := none, recordingStart := t0, ttsPlaying := false }

/-- One run of the `checkVolume` callback on a frame.  Returns the updated
refs and whether `stopRecordingAndSend` was invoked (end-of-utterance).
`bargeInEnabled` is the compile-time constant `BARGE_IN_ENABLED`. -/
def checkVolume (bargeInEnabled : Bool) (s : VadState) (f : Frame) : VadState × Bool :=
  -- Barge-in: when enabled, user speaking over TTS stops playback.
  let s1 := if bargeInEnabled = true ∧ s.ttsPlaying = true ∧ BARGE_IN_RMS_THRESHOLD < f.rms then
    { s with ttsPlaying := false } else s
  -- if (rms > SPEECH_RMS_THRESHOLD) hasSpokenRef.current = true
  let s2 := if SPEECH_RMS_THRESHOLD < f.rms then { s1 with hasSpoken := true } else s1
  let recordingDuration := f.t - s2.recordingStart
  let canSend := s2.hasSpoken = true ∧ MIN_RECORDING_MS ≤ recordingDuration
  if canSend ∧ f.rms < SILENCE_RMS_THRESHOLD then
    match s2.silenceStart with
    | none => ({ s2 with silenceStart := some f.t }, false)
    | some start =>
      if SILENCE_MS ≤ f.t - start then (s2, true) else (s2, false)
  else
    ({ s2 with silenceStart := none }, false)

/-- Refs after the animation loop has processed the frames `p` in order,
starting from a fresh recording begun at time `t0` (barge-in at its
source default). -/
def vadStateAfter (t0 : ℕ) (p : List Frame) : VadState :=
  p.foldl (fun s f => (checkVolume BARGE_IN_ENABLED s f).1) (initialVadState t0)

/-- Whether end-of-utterance is signalled at frame `f` when it arrives
after the frames `p`. -/
def vadSignals (t0 : ℕ) (p : List Frame) (f : Frame) : Bool :=
  (checkVolume BARGE_IN_ENABLED (vadStateAfter t0 p) f).2

/-- Number of end-of-utterance signals over a whole recording.  After a
signal `checkVolume` returns without calling `requestAnimationFrame`, so
the loop stops: later frames are not observed. -/
def vadSignalCount (s : VadState) : List Frame → ℕ
  | [] => 0
  | f :: fs =>
    match checkVolume BARGE_IN_ENABLED s f with
    | (_, true) => 1
    | (s', false) => vadSignalCount s' fs

/-- Whether some frame of `p` latched `hasSpoken` (RMS strictly above the
speech threshold). -/
def spokenOf (p : List Frame) : Bool :=
  p.any (fun f => decide (SPEECH_RMS_THRESHOLD < f.rms))

/-- The end-of-utterance condition exactly as the claim states it: speech
was latched by an earlier frame, the elapsed recording time is at least
the minimum duration, and a contiguous trailing run of below-silence
frames (including the current one) has lasted at least the required
silence duration. -/
def claimC1Cond (t0 : ℕ) (p : List Frame) (f : Frame) : Prop :=
  spokenOf p = true ∧
  MIN_RECORDING_MS ≤ f.t - t0 ∧
  f.rms < SILENCE_RMS_THRESHOLD ∧
  ∃ a g b, p = a ++ g :: b ∧
    (∀ x ∈ g :: b, x.rms < SILENCE_RMS_THRESHOLD) ∧
    SILENCE_MS ≤ f.t - g.t

/-- The corrected end-of-utterance condition: the silence timer only
starts at the first below-silence frame at which speech had latched and
the minimum recording duration had already elapsed, so every frame of
the qualifying trailing run must itself satisfy those conditions. -/
def amendedC1Cond (t0 : ℕ) (p : List Frame) (f : Frame) : Prop :=
  MIN_RECORDING_MS ≤ f.t - t0 ∧
  f.rms < SILENCE_RMS_THRESHOLD ∧
  ∃ a g b, p = a ++ g :: b ∧ spokenOf a = true ∧
    (∀ x ∈ g :: b, x.rms < SILENCE_RMS_THRESHOLD ∧ MIN_RECORDING_MS ≤ x.t - t0) ∧
    SILENCE_MS ≤ f.t - g.t

/-- A frame strictly above the speech threshold is not below the silence
threshold (the thresholds have a hysteresis gap). -/
lemma not_latch_of_silent {f : Frame} (h : f.rms < SILENCE_RMS_THRESHOLD) :
    ¬ SPEECH_RMS_THRESHOLD < f.rms := by
  intro hlt
  have hle : SILENCE_RMS_THRESHOLD ≤ SPEECH_RMS_THRESHOLD := by decide
  exact absurd (lt_trans hlt h) (not_lt.mpr hle)

lemma spokenOf_append (a b : List Frame) :
    spokenOf (a ++ b) = (spokenOf a || spokenOf b) := by
  simp [spokenOf, List.any_append]

lemma vadStateAfter_nil (t0 : ℕ) : vadStateAfter t0 [] = initialVadState t0 := rfl

lemma vadStateAfter_append (t0 : ℕ) (p q : List Frame) :
    vadStateAfter t0 (p ++ q) =
      q.foldl (fun s f => (checkVolume BARGE_IN_ENABLED s f).1) (vadStateAfter t0 p) := by
  simp [vadStateAfter, List.foldl_append]

lemma vadStateAfter_snoc (t0 : ℕ) (p : List Frame) (g : Frame) :
    vadStateAfter t0 (p ++ [g]) =
      (checkVolume BARGE_IN_ENABLED (vadStateAfter t0 p) g).1 := by
  simp [vadStateAfter_append]

lemma checkVolume_recordingStart (b : Bool) (s : VadState) (f : Frame) :
    ((checkVolume b s f).1).recordingStart = s.recordingStart := by
  unfold checkVolume
  by_cases h1 : b = true ∧ s.ttsPlaying = true ∧ BARGE_IN_RMS_THRESHOLD < f.rms <;>
    by_cases h2 : SPEECH_RMS_THRESHOLD < f.rms <;>
    rcases hss : s.silenceStart with _ | st <;>
    simp [h1, h2, hss] <;> split_ifs <;> simp_all

lemma checkVolume_ttsPlaying_false (b : Bool) (s : VadState) (f : Frame)
    (h : s.ttsPlaying = false) : ((checkVolume b s f).1).ttsPlaying = false := by
  unfold checkVolume
  by_cases h1 : b = true ∧ s.ttsPlaying = true ∧ BARGE_IN_RMS_THRESHOLD < f.rms <;>
    by_cases h2 : SPEECH_RMS_THRESHOLD < f.rms <;>
    rcases hss : s.silenceStart with _ | st <;>
    simp [h1, h2, hss, h] <;> split_ifs <;> simp_all

lemma checkVolume_hasSpoken (b : Bool) (s : VadState) (f : Frame) :
    ((checkVolume b s f).1).hasSpoken
      = (s.hasSpoken || decide (SPEECH_RMS_THRESHOLD < f.rms)) := by
  unfold checkVolume
  by_cases h1 : b = true ∧ s.ttsPlaying = true ∧ BARGE_IN_RMS_THRESHOLD < f.rms <;>
    by_cases h2 : SPEECH_RMS_THRESHOLD < f.rms <;>
    rcases hss : s.silenceStart with _ | st <;>
    simp [h1, h2, hss] <;> split_ifs <;> simp_all

lemma checkVolume_silenceStart (b : Bool) (s : VadState) (f : Frame) :
    ((checkVolume b s f).1).silenceStart =
      if (s.hasSpoken = true ∨ SPEECH_RMS_THRESHOLD < f.rms) ∧
         MIN_RECORDING_MS ≤ f.t - s.recordingStart ∧ f.rms < SILENCE_RMS_THRESHOLD
      then some (s.silenceStart.getD f.t) else none := by
  unfold checkVolume
  by_cases h1 : b = true ∧ s.ttsPlaying = true ∧ BARGE_IN_RMS_THRESHOLD < f.rms <;>
    by_cases h2 : SPEECH_RMS_THRESHOLD < f.rms <;>
    rcases hss : s.silenceStart with _ | st <;>
    simp [h1, h2, hss] <;> split_ifs <;> simp_all

lemma checkVolume_fired_iff (b : Bool) (s : VadState) (f : Frame) :
    (checkVolume b s f).2 = true ↔
      ((s.hasSpoken = true ∨ SPEECH_RMS_THRESHOLD < f.rms) ∧
       MIN_RECORDING_MS ≤ f.t - s.recordingStart ∧ f.rms < SILENCE_RMS_THRESHOLD ∧
       ∃ t, s.silenceStart = some t ∧ SILENCE_MS ≤ f.t - t) := by
  unfold checkVolume
  by_cases h1 : b = true ∧ s.ttsPlaying = true ∧ BARGE_IN_RMS_THRESHOLD < f.rms <;>
    by_cases h2 : SPEECH_RMS_THRESHOLD < f.rms <;>
    rcases hss : s.silenceStart with _ | st <;>
    simp [h1, h2, hss] <;> split_ifs <;> simp_all

lemma vadStateAfter_basic (t0 : ℕ) (p : List Frame) :
    (vadStateAfter t0 p).recordingStart = t0 ∧
    (vadStateAfter t0 p).ttsPlaying = false ∧
    (vadStateAfter t0 p).hasSpoken = spokenOf p := by
  induction p using List.reverseRecOn with
  | nil => simp [vadStateAfter_nil, initialVadState, spokenOf]
  | append_singleton q g ih =>
    obtain ⟨h1, h2, h3⟩ := ih
    refine ⟨?_, ?_, ?_⟩
    · rw [vadStateAfter_snoc, checkVolume_recordingStart, h1]
    · rw [vadStateAfter_snoc]
      exact checkVolume_ttsPlaying_false _ _ _ h2
    · rw [vadStateAfter_snoc, checkVolume_hasSpoken, h3, spokenOf_append]
      simp [spokenOf]

/-- Soundness of the silence timer: whenever `silenceStartRef` holds a
timestamp `u`, the already-processed frames end in a contiguous run of
below-silence frames, each observed after the minimum recording duration
had elapsed and after speech had latched, and `u` is the time of the
first frame of that run. -/
lemma silenceStart_sound (t0 : ℕ) (p : List Frame) (u : ℕ)
    (h : (vadStateAfter t0 p).silenceStart = some u) :
    ∃ a g b, p = a ++ g :: b ∧ u = g.t ∧ spokenOf a = true ∧
      ∀ x ∈ g :: b, x.rms < SILENCE_RMS_THRESHOLD ∧ MIN_RECORDING_MS ≤ x.t - t0 := by
  induction p using List.reverseRecOn generalizing u with
  | nil => simp [vadStateAfter_nil, initialVadState] at h
  | append_singleton q g ih =>
    rw [vadStateAfter_snoc, checkVolume_silenceStart] at h
    obtain ⟨hrs, _, hsp⟩ := vadStateAfter_basic t0 q
    rw [hrs, hsp] at h
    by_cases hc : (spokenOf q = true ∨ SPEECH_RMS_THRESHOLD < g.rms) ∧
        MIN_RECORDING_MS ≤ g.t - t0 ∧ g.rms < SILENCE_RMS_THRESHOLD
    · rw [if_pos hc] at h
      obtain ⟨hspoken, hmin, hsil⟩ := hc
      have hspokenq : spokenOf q = true := by
        rcases hspoken with h' | h'
        · exact h'
        · exact absurd h' (not_latch_of_silent hsil)
      rcases hss : (vadStateAfter t0 q).silenceStart with _ | t
      · rw [hss] at h
        simp only [Option.getD_none, Option.some_inj] at h
        exact ⟨q, g, [], rfl, h.symm, hspokenq, by simp [hsil, hmin]⟩
      · rw [hss] at h
        simp only [Option.getD_some, Option.some_inj] at h
        obtain ⟨a, g0, b, hq, hu, hsa, hall⟩ := ih t hss
        refine ⟨a, g0, b ++ [g], by rw [hq]; simp, by omega, hsa, ?_⟩
        intro x hx
        rcases List.mem_cons.mp hx with hx | hx
        · exact hall x (by simp [hx])
        · rcases List.mem_append.mp hx with hx | hx
          · exact hall x (by simp [hx])
          · have : x = g := by simpa using hx
            exact this ▸ ⟨hsil, hmin⟩
    · rw [if_neg hc] at h
      cases h

/-- Completeness of the silence timer: if the processed frames end in a
contiguous qualifying run headed by `g` (frame times non-decreasing),
the timer is set, to `g.t` or earlier. -/
lemma silenceStart_complete (t0 : ℕ) (a : List Frame) (g : Frame) (b : List Frame)
    (hsa : spokenOf a = true)
    (hall : ∀ x ∈ g :: b, x.rms < SILENCE_RMS_THRESHOLD ∧ MIN_RECORDING_MS ≤ x.t - t0)
    (hmono : (a ++ g :: b).Pairwise (fun x y => x.t ≤ y.t)) :
    ∃ u, (vadStateAfter t0 (a ++ g :: b)).silenceStart = some u ∧ u ≤ g.t := by
  induction b using List.reverseRecOn with
  | nil =>
    rw [show a ++ [g] = a ++ [g] from rfl, vadStateAfter_snoc, checkVolume_silenceStart]
    obtain ⟨hrs, _, hsp⟩ := vadStateAfter_basic t0 a
    rw [hrs, hsp]
    have hg := hall g (by simp)
    rw [if_pos ⟨Or.inl hsa, hg.2, hg.1⟩]
    rcases hss : (vadStateAfter t0 a).silenceStart with _ | t
    · exact ⟨g.t, by simp, le_refl _⟩
    · obtain ⟨a', g0, b', ha, ht, _, _⟩ := silenceStart_sound t0 a t hss
      have hg0 : g0 ∈ a := by rw [ha]; simp
      have hle : g0.t ≤ g.t := by
        have := (List.pairwise_append.mp hmono).2.2 g0 hg0 g (by simp)
        exact this
      exact ⟨t, by simp, ht ▸ hle⟩
  | append_singleton b' h ih =>
    have hre : a ++ g :: (b' ++ [h]) = (a ++ g :: b') ++ [h] := by simp
    rw [hre, vadStateAfter_snoc, checkVolume_silenceStart]
    obtain ⟨hrs, _, hsp⟩ := vadStateAfter_basic t0 (a ++ g :: b')
    rw [hrs, hsp]
    have hh := hall h (by simp)
    have hspoken : spokenOf (a ++ g :: b') = true := by
      rw [spokenOf_append, hsa]; simp
    rw [if_pos ⟨Or.inl hspoken, hh.2, hh.1⟩]
    have hmono' : (a ++ g :: b').Pairwise (fun x y => x.t ≤ y.t) := by
      have := hre ▸ hmono
      exact (List.pairwise_append.mp this).1
    obtain ⟨u, hss, hu⟩ :=
      ih (fun x hx => hall x (by rcases List.mem_cons.mp hx with hx | hx <;> simp [hx])) hmono'
    rw [hss]
    exact ⟨u, by simp, hu⟩

/-- Characterization of end-of-utterance for `checkVolume`: over any
recording with non-decreasing frame times, the detector signals
stop-and-send at a frame exactly under the corrected condition. -/
lemma vadSignals_iff (t0 : ℕ) (p : List Frame) (f : Frame)
    (hmono : (p ++ [f]).Pairwise (fun x y => x.t ≤ y.t)) :
    vadSignals t0 p f = true ↔ amendedC1Cond t0 p f := by
  unfold vadSignals amendedC1Cond
  rw [checkVolume_fired_iff]
  obtain ⟨hrs, _, hsp⟩ := vadStateAfter_basic t0 p
  rw [hrs, hsp]
  constructor
  · rintro ⟨hspoken, hmin, hsil, t, hss, hsilence⟩
    obtain ⟨a, g, b, hp, ht, hsa, hall⟩ := silenceStart_sound t0 p t hss
    exact ⟨hmin, hsil, a, g, b, hp, hsa, hall, by omega⟩
  · rintro ⟨hmin, hsil, a, g, b, hp, hsa, hall, hsilence⟩
    have hmono' : (a ++ g :: b).Pairwise (fun x y => x.t ≤ y.t) := by
      rw [← hp]
      exact (List.pairwise_append.mp hmono).1
    obtain ⟨u, hss, hu⟩ := silenceStart_complete t0 a g b hsa hall hmono'
    have hspokenp : spokenOf p = true := by
      rw [hp, spokenOf_append, hsa]; simp
    exact ⟨Or.inl hspokenp, hmin, hsil, u, hp ▸ hss, by omega⟩

/-- Scenario B prefix: a 700 ms burst of frames above the speech
threshold (RMS 0.03, one frame per 100 ms), then below-silence frames
(RMS 0) up to t = 1700 ms. -/
def scenarioBPrefix : List Frame :=
  [⟨mkRat 3 100, 0⟩, ⟨mkRat 3 100, 100⟩, ⟨mkRat 3 100, 200⟩, ⟨mkRat 3 100, 300⟩,
   ⟨mkRat 3 100, 400⟩, ⟨mkRat 3 100, 500⟩, ⟨mkRat 3 100, 600⟩, ⟨mkRat 3 100, 700⟩,
   ⟨0, 800⟩, ⟨0, 900⟩, ⟨0, 1000⟩, ⟨0, 1100⟩, ⟨0, 1200⟩, ⟨0, 1300⟩,
   ⟨0, 1400⟩, ⟨0, 1500⟩, ⟨0, 1600⟩, ⟨0, 1700⟩]

/-- Scenario B final frame, 1100 ms after the burst ended. -/
def scenarioBLast : Frame := ⟨0, 1800⟩

/-- Scenario B: the full frame sequence of the recording. -/
def scenarioBFrames : List Frame := scenarioBPrefix ++ [scenarioBLast]

/-- Counterexample prefix: speech latches at t = 0 (RMS 0.1), then
below-silence frames every 100 ms up to t = 1000. -/
def cexC1Prefix : List Frame :=
  [⟨mkRat 1 10, 0⟩, ⟨0, 100⟩, ⟨0, 200⟩, ⟨0, 300⟩, ⟨0, 400⟩, ⟨0, 500⟩,
   ⟨0, 600⟩, ⟨0, 700⟩, ⟨0, 800⟩, ⟨0, 900⟩, ⟨0, 1000⟩]

/-- Counterexample frame at t = 1100: the trailing below-silence run
started at t = 100, so it has lasted 1000 ms, yet the detector does not
fire. -/
def cexC1Frame : Frame := ⟨0, 1100⟩

/-- C1 (counterexample).  At this concrete recording the claimed
condition holds — speech latched, elapsed recording 1100 ms ≥ 600 ms,
and the contiguous trailing below-silence run (from t = 100) has lasted
1000 ms ≥ 1000 ms — yet `checkVolume` does not signal end-of-utterance,
because the silence timer was repeatedly reset while the elapsed
recording time was still below the minimum duration and therefore only
started at t = 600. -/
theorem vad_claimC1_counterexample :
    claimC1Cond 0 cexC1Prefix cexC1Frame ∧ vadSignals 0 cexC1Prefix cexC1Frame = false := by
  constructor
  · refine ⟨by decide, by decide, by decide,
      [⟨mkRat 1 10, 0⟩], ⟨0, 100⟩,
      [⟨0, 200⟩, ⟨0, 300⟩, ⟨0, 400⟩, ⟨0, 500⟩, ⟨0, 600⟩, ⟨0, 700⟩, ⟨0, 800⟩,
       ⟨0, 900⟩, ⟨0, 1000⟩], by decide, by decide, by decide⟩
  · decide

/-- C1 (amended).  End-of-utterance is signalled at a frame iff that
frame is below the silence threshold, the elapsed recording time is at
least the minimum duration, speech latched earlier, and the contiguous
trailing run of below-silence frames each observed with the minimum
recording duration already elapsed has lasted at least the required
silence duration; and Scenario B (700 ms burst above the speech
threshold, then 1100 ms below the silence threshold, minimum duration
600 ms) yields exactly one end-of-utterance. -/
theorem vad_end_of_utterance :
    (∀ (t0 : ℕ) (p : List Frame) (f : Frame),
        (p ++ [f]).Pairwise (fun x y => x.t ≤ y.t) →
        (vadSignals t0 p f = true ↔ amendedC1Cond t0 p f))
    ∧ vadSignalCount (initialVadState 0) scenarioBFrames = 1 :=
  ⟨vadSignals_iff, by decide⟩

/-- C1 (witness): the amended characterization applied to the concrete
Scenario B recording. -/
theorem vad_end_of_utterance_witness :
    vadSignals 0 scenarioBPrefix scenarioBLast = true ↔
      amendedC1Cond 0 scenarioBPrefix scenarioBLast :=
  vad_end_of_utterance.1 0 scenarioBPrefix scenarioBLast (by decide)

/-! ## Streaming transcription client (`api/client.ts`, `startStreamingTranscribe`) -/

/-- JavaScript `String.prototype.trim()`: strip leading and trailing
whitespace (modelled with `Char.isWhitespace`). -/
def jsTrim (s : String) : String :=
  ⟨((s.data.dropWhile Char.isWhitespace).reverse.dropWhile Char.isWhitespace).reverse⟩

/-- A parsed server message on the streaming-transcribe WebSocket:
`{type:'final', text}`, `{type:'done'}`, `{type:'error'}`, or anything
else (ignored). -/
inductive WsMsg where
  | finalMsg (text : String)
  | doneMsg
  | errorMsg
  | otherMsg
deriving DecidableEq, Repr

/-- Client-side session state: the `finalParts` array and the value the
`end()` promise has been resolved with, if any (`resolveEnd` only takes
effect once). -/
structure StreamSession where
  finalParts : List String
  resolved : Option String
deriving DecidableEq, Repr

/-- Session state right after the WebSocket is opened. -/
def initialStreamSession : StreamSession := { finalParts := [], resolved := none }

/-- `resolveEnd(v)`: resolve the end-promise, first resolution wins. -/
def resolveEnd (s : StreamSession) (v : String) : StreamSession :=
  match s.resolved with
  | none => { s with resolved := some v }
  | some _ => s

/-- `finalParts.join(' ').trim()`. -/
def joinedTranscript (parts : List String) : String :=
  jsTrim (String.intercalate " " parts)

/-- The `ws.onmessage` handler: push non-empty `final` fragments
(`msg.text` must be truthy), resolve on `done` with the joined trimmed
transcript, resolve with the empty string on `error`. -/
def onWsMessage (s : StreamSession) (m : WsMsg) : StreamSession :=
  match m with
  | .finalMsg text =>
    if text ≠ "" then { s with finalParts := s.finalParts ++ [text] } else s
  | .doneMsg => resolveEnd s (joinedTranscript s.finalParts)
  | .errorMsg => resolveEnd s ""
  | .otherMsg => s

/-- Process a list of server messages in order. -/
def processWsMessages (s : StreamSession) (ms : List WsMsg) : StreamSession :=
  ms.foldl onWsMessage s

/-- The `ws.onerror` handler: `resolveEnd('')`. -/
def onWsError (s : StreamSession) : StreamSession := resolveEnd s ""

/-- The `ws.onclose` handler: if not yet resolved, resolve with the
joined trimmed fragments received so far. -/
def onWsClose (s : StreamSession) : StreamSession :=
  match s.resolved with
  | none => resolveEnd s (joinedTranscript s.finalParts)
  | some _ => s

/-- The non-empty `final` fragments carried by a message list, in order. -/
def collectFinals (ms : List WsMsg) : List String :=
  ms.filterMap (fun m =>
    match m with
    | .finalMsg text => if text ≠ "" then some text else none
    | _ => none)

lemma processWsMessages_append (s : StreamSession) (ms ns : List WsMsg) :
    processWsMessages s (ms ++ ns) = processWsMessages (processWsMessages s ms) ns := by
  simp [processWsMessages, List.foldl_append]

/-- Once resolved, the resolution value never changes. -/
lemma processWsMessages_resolved (s : StreamSession) (v : String)
    (h : s.resolved = some v) (ms : List WsMsg) :
    (processWsMessages s ms).resolved = some v := by
  induction ms generalizing s with
  | nil => exact h
  | cons m ms ih =>
    have hm : (onWsMessage s m).resolved = some v := by
      cases m <;> simp [onWsMessage, resolveEnd, h] <;> split <;> simp [h]
    exact ih _ hm

lemma processWsMessages_singleton (s : StreamSession) (m : WsMsg) :
    processWsMessages s [m] = onWsMessage s m := rfl

/-- Before any terminal message, the session is unresolved and
`finalParts` holds exactly the non-empty `final` fragments seen. -/
lemma processWsMessages_pre (pre : List WsMsg)
    (hdone : WsMsg.doneMsg ∉ pre) (herr : WsMsg.errorMsg ∉ pre) :
    (processWsMessages initialStreamSession pre).resolved = none ∧
    (processWsMessages initialStreamSession pre).finalParts = collectFinals pre := by
  induction pre using List.reverseRecOn with
  | nil => simp [processWsMessages, initialStreamSession, collectFinals]
  | append_singleton ms m ih =>
    have hdone' : WsMsg.doneMsg ∉ ms := fun h => hdone (by simp [h])
    have herr' : WsMsg.errorMsg ∉ ms := fun h => herr (by simp [h])
    obtain ⟨h1, h2⟩ := ih hdone' herr'
    rw [processWsMessages_append, processWsMessages_singleton]
    cases m with
    | finalMsg text =>
      by_cases ht : text = ""
      · simp [onWsMessage, ht, h1, h2, collectFinals, List.filterMap_append]
      · simp [onWsMessage, ht, h1, h2, collectFinals, List.filterMap_append]
    | doneMsg => exact absurd (by simp) hdone
    | errorMsg => exact absurd (by simp) herr
    | otherMsg => simp [onWsMessage, h1, h2, collectFinals, List.filterMap_append]

/-- C5 (counterexample).  With fragments `"a"`, `""`, `"b"` before
`done`, the client resolves with `"a b"` — the empty fragment is skipped
by the `msg.text` truthiness check — while joining all received `final`
fragments with single spaces and trimming gives `"a  b"`. -/
theorem stt_done_claim_counterexample :
    (processWsMessages initialStreamSession
        [WsMsg.finalMsg "a", WsMsg.finalMsg "", WsMsg.finalMsg "b", WsMsg.doneMsg]).resolved
      = some "a b"
    ∧ joinedTranscript ["a", "", "b"] = "a  b"
    ∧ ("a b" : String) ≠ "a  b" := by
  refine ⟨rfl, rfl, by decide⟩

/-- C5 (amended).  For a session in which the server sends `done` with
no preceding `error`, `end()` resolves with the space-joined, trimmed
concatenation of the non-empty `final` fragments received before
`done`; later messages do not change the resolution. -/
theorem stt_done_transcript (pre suf : List WsMsg)
    (hdone : WsMsg.doneMsg ∉ pre) (herr : WsMsg.errorMsg ∉ pre) :
    (processWsMessages initialStreamSession (pre ++ WsMsg.doneMsg :: suf)).resolved
      = some (joinedTranscript (collectFinals pre)) := by
  obtain ⟨h1, h2⟩ := processWsMessages_pre pre hdone herr
  have hsplit : pre ++ WsMsg.doneMsg :: suf = (pre ++ [WsMsg.doneMsg]) ++ suf := by simp
  rw [hsplit, processWsMessages_append, processWsMessages_append,
    processWsMessages_singleton]
  apply processWsMessages_resolved
  simp [onWsMessage, resolveEnd, h1, h2]

/-- C5 (witness): a concrete session with two fragments and `done`. -/
theorem stt_done_transcript_witness :
    (processWsMessages initialStreamSession
        ([WsMsg.finalMsg "hello", WsMsg.finalMsg "world"] ++ WsMsg.doneMsg :: [])).resolved
      = some (joinedTranscript (collectFinals [WsMsg.finalMsg "hello", WsMsg.finalMsg "world"])) :=
  stt_done_transcript [WsMsg.finalMsg "hello", WsMsg.finalMsg "world"] []
    (by decide) (by decide)

/-- C6 (counterexample).  After receiving the fragment `"hello"`, a
connection error resolves the session with `""` — `ws.onerror` calls
`resolveEnd('')` — discarding the partial text instead of resolving
with `"hello"`. -/
theorem stt_error_claim_counterexample :
    (onWsError (processWsMessages initialStreamSession [WsMsg.finalMsg "hello"])).resolved
      = some ""
    ∧ joinedTranscript (collectFinals [WsMsg.finalMsg "hello"]) = "hello"
    ∧ ("" : String) ≠ "hello" := by
  refine ⟨rfl, rfl, by decide⟩

/-- C6 (amended).  If the connection closes before any `done` or
`error` message, the session resolves with the transcript built from
the fragments received so far (possibly empty) — the partial text is
kept; if instead the connection errors, the session resolves with the
empty string, discarding the partial text. -/
theorem stt_close_keeps_partial (pre : List WsMsg)
    (hdone : WsMsg.doneMsg ∉ pre) (herr : WsMsg.errorMsg ∉ pre) :
    (onWsClose (processWsMessages initialStreamSession pre)).resolved
      = some (joinedTranscript (collectFinals pre))
    ∧ (onWsError (processWsMessages initialStreamSession pre)).resolved = some "" := by
  obtain ⟨h1, h2⟩ := processWsMessages_pre pre hdone herr
  constructor
  · simp [onWsClose, resolveEnd, h1, h2]
  · simp [onWsError, resolveEnd, h1]

/-- C6 (witness): a concrete session with one fragment, then close /
error. -/
theorem stt_close_keeps_partial_witness :
    (onWsClose (processWsMessages initialStreamSession [WsMsg.finalMsg "hi"])).resolved
      = some (joinedTranscript (collectFinals [WsMsg.finalMsg "hi"]))
    ∧ (onWsError (processWsMessages initialStreamSession [WsMsg.finalMsg "hi"])).resolved
      = some "" :=
  stt_close_keeps_partial [WsMsg.finalMsg "hi"] (by decide) (by decide)

/-! ## Markdown stripping for TTS (`utils/stripMarkdown.ts`) -/

/-- The backtick character (code-span delimiter). -/
def backtickChar : Char := Char.ofNat 96

/-- JavaScript regex `\s` on the ASCII range: space, tab, newline,
carriage return, vertical tab, form feed. -/
def isJsSpace (c : Char) : Bool :=
  c = ' ' ∨ c = '\t' ∨ c = '\n' ∨ c = '\r' ∨ c = Char.ofNat 11 ∨ c = Char.ofNat 12

/-- First occurrence of `pat` in a character list: the characters before
it and the characters after it. -/
def splitOnFirst (pat : List Char) : List Char → Option (List Char × List Char)
  | [] => if pat.isPrefixOf [] then some ([], []) else none
  | c :: cs =>
    if pat.isPrefixOf (c :: cs) then some ([], (c :: cs).drop pat.length)
    else
      match splitOnFirst pat cs with
      | some (b, a) => some (c :: b, a)
      | none => none

/-- Global leftmost regex replacement: at each position try the matcher;
on a match emit its replacement and continue after the consumed text,
otherwise keep the character and move on.  `fuel` bounds the recursion
(every step consumes at least one character). -/
def scanRepl (tryMatch : List Char → Option (List Char × List Char)) :
    ℕ → List Char → List Char
  | 0, l => l
  | _ + 1, [] => []
  | fuel + 1, c :: cs =>
    match tryMatch (c :: cs) with
    | some (out, rest) => out ++ scanRepl tryMatch fuel rest
    | none => c :: scanRepl tryMatch fuel cs

/-- Same driver for `m`-anchored patterns: the matcher is tried only at
line starts and also reports whether the position after the match is a
line start. -/
def scanReplLine (tryMatch : List Char → Option (List Char × Bool × List Char)) :
    ℕ → Bool → List Char → List Char
  | 0, _, l => l
  | _ + 1, _, [] => []
  | fuel + 1, lineStart, c :: cs =>
    match if lineStart then tryMatch (c :: cs) else none with
    | some (out, ls, rest) => out ++ scanReplLine tryMatch fuel ls rest
    | none => c :: scanReplLine tryMatch fuel (c = '\n') cs

/-- Matcher for a fenced code block: three backticks, a shortest
(non-greedy) body, three backticks; replaced by a single space. -/
def fenceMatch (l : List Char) : Option (List Char × List Char) :=
  let fence := [backtickChar, backtickChar, backtickChar]
  if fence.isPrefixOf l then
    match splitOnFirst fence (l.drop 3) with
    | some (_, rest) => some ([' '], rest)
    | none => none
  else none

/-- Matcher for inline code: backtick, one or more non-backtick
characters, backtick; replaced by the inner characters. -/
def inlineCodeMatch (l : List Char) : Option (List Char × List Char) :=
  match l with
  | [] => none
  | c :: cs =>
    if c = backtickChar then
      let mid := cs.takeWhile (fun x => x ≠ backtickChar)
      let rest := cs.drop mid.length
      match rest with
      | d :: rest2 => if mid ≠ [] ∧ d = backtickChar then some (mid, rest2) else none
      | [] => none
    else none

/-- Matcher for a paired delimiter `d` enclosing one or more characters
other than `bad` (bold, italics, strikethrough); keeps the inner text. -/
def pairedMatch (d : List Char) (bad : Char) (l : List Char) :
    Option (List Char × List Char) :=
  if d.isPrefixOf l then
    let after := l.drop d.length
    let mid := after.takeWhile (fun x => x ≠ bad)
    let rest := after.drop mid.length
    if mid ≠ [] ∧ d.isPrefixOf rest then some (mid, rest.drop d.length) else none
  else none

/-- Matcher for a markdown link `[text](url)`; keeps the link text. -/
def linkMatch (l : List Char) : Option (List Char × List Char) :=
  match l with
  | '[' :: cs =>
    let txt := cs.takeWhile (fun x => x ≠ ']')
    let rest := cs.drop txt.length
    (match rest with
     | ']' :: '(' :: cs2 =>
       let url := cs2.takeWhile (fun x => x ≠ ')')
       let rest2 := cs2.drop url.length
       (match rest2 with
        | ')' :: rest3 => if txt ≠ [] ∧ url ≠ [] then some (txt, rest3) else none
        | _ => none)
     | _ => none)
  | _ => none

/-- Matcher for `^#{1,6}\s+` at a line start (headers); removed. -/
def headerMatch (l : List Char) : Option (List Char × Bool × List Char) :=
  let hs := l.takeWhile (fun x => x = '#')
  let rest := l.drop hs.length
  if 1 ≤ hs.length ∧ hs.length ≤ 6 then
    match rest with
    | r :: _ =>
      if isJsSpace r then
        let ws := rest.takeWhile isJsSpace
        some ([], decide (ws.getLastD ' ' = '\n'), rest.drop ws.length)
      else none
    | [] => none
  else none

/-- Matcher for `^\s*[-*+]\s+` at a line start (bullet list markers);
replaced by a single space. -/
def bulletMatch (l : List Char) : Option (List Char × Bool × List Char) :=
  let ws0 := l.takeWhile isJsSpace
  let rest := l.drop ws0.length
  match rest with
  | m :: rest2 =>
    if m = '-' ∨ m = '*' ∨ m = '+' then
      let ws1 := rest2.takeWhile isJsSpace
      if ws1 ≠ [] then
        some ([' '], decide (ws1.getLastD ' ' = '\n'), rest2.drop ws1.length)
      else none
    else none
  | [] => none

/-- Matcher for `^\s*\d+\.\s+` at a line start (numbered list markers);
replaced by a single space. -/
def numberedMatch (l : List Char) : Option (List Char × Bool × List Char) :=
  let ws0 := l.takeWhile isJsSpace
  let rest := l.drop ws0.length
  let digits := rest.takeWhile Char.isDigit
  if digits ≠ [] then
    match rest.drop digits.length with
    | '.' :: rest2 =>
      let ws1 := rest2.takeWhile isJsSpace
      if ws1 ≠ [] then
        some ([' '], decide (ws1.getLastD ' ' = '\n'), rest2.drop ws1.length)
      else none
    | _ => none
  else none

/-- Matcher for `\n{2,}`; replaced by one newline. -/
def newlineRunMatch (l : List Char) : Option (List Char × List Char) :=
  match l with
  | '\n' :: '\n' :: _ =>
    let run := l.takeWhile (fun x => x = '\n')
    some (['\n'], l.drop run.length)
  | _ => none

/-- Matcher for `[ \t]+`; replaced by one space. -/
def spaceRunMatch (l : List Char) : Option (List Char × List Char) :=
  match l with
  | c :: _ =>
    if c = ' ' ∨ c = '\t' then
      let run := l.takeWhile (fun x => x = ' ' ∨ x = '\t')
      some ([' '], l.drop run.length)
    else none
  | [] => none

/-- `stripMarkdownForTTS`: strip markdown formatting so TTS reads plain
text.  Empty-after-trim input is returned unchanged; otherwise the
regex replacements of the source are applied in order, ending with a
trim. -/
def stripMarkdownForTTS (text : String) : String :=
  if jsTrim text = "" then text
  else
    let l0 := text.data
    let l1 := scanRepl fenceMatch l0.length l0
    let l2 := scanRepl inlineCodeMatch l1.length l1
    let l3 := scanRepl (pairedMatch ['*', '*'] '*') l2.length l2
    let l4 := scanRepl (pairedMatch ['_', '_'] '_') l3.length l3
    let l5 := scanRepl (pairedMatch ['*'] '*') l4.length l4
    let l6 := scanRepl (pairedMatch ['_'] '_') l5.length l5
    let l7 := scanReplLine headerMatch l6.length true l6
    let l8 := scanRepl (pairedMatch ['~', '~'] '~') l7.length l7
    let l9 := scanRepl linkMatch l8.length l8
    let l10 := scanReplLine bulletMatch l9.length true l9
    let l11 := scanReplLine numberedMatch l10.length true l10
    let l12 := scanRepl newlineRunMatch l11.length l11
    let l13 := scanRepl spaceRunMatch l12.length l12
    jsTrim ⟨l13⟩

/-- `textToSpeech(plainForTTS || assistantContent, ...)` — the
markdown-stripped reply, falling back to the raw reply text when the
stripped result is empty (JavaScript `||` on strings). -/
def ttsSelect (assistantContent : String) : String :=
  let plainForTTS := stripMarkdownForTTS assistantContent
  if plainForTTS = "" then assistantContent else plainForTTS

/-! ## Turn pipeline (`useVoiceConversation.ts`, `stopRecordingAndSend`) -/

/-- Chat message roles. -/
inductive Role where
  | user
  | assistant
  | system
deriving DecidableEq, Repr

/-- Per-turn stage latencies attached to assistant messages. -/
structure TurnLatency where
  stt_ms : ℤ
  llm_ms : ℤ
  tts_ms : ℤ
deriving DecidableEq, Repr

/-- A chat-store message (`ChatMessage` of `api/client.ts`). -/
structure ChatMessage where
  role : Role
  content : String
  latency : Option TurnLatency
deriving DecidableEq, Repr

/-- The refs and React state of `useVoiceConversation` that the turn
pipeline reads and writes: recorder / stream / animation-loop status,
VAD refs, TTS audio ref, stop flag, processing/error state, and the
chat store's message list. -/
structure PipelineState where
  recorderRecording : Bool
  streamActive : Bool
  isListening : Bool
  animationActive : Bool
  silenceStart : Option ℕ
  hasSpoken : Bool
  chunks : ℕ
  ttsPlaying : Bool
  userRequestedStop : Bool
  isProcessing : Bool
  errorMsg : Option String
  messages : List ChatMessage
deriving DecidableEq, Repr

/-- Externally observable actions of one turn. -/
inductive Ev where
  | transcribeCall
  | chatCall
  | ttsCall (text : String)
  | endSessionCall
  | restartRec
deriving DecidableEq, Repr

/-- Result of an awaited collaborator call: a value, or a thrown error
message. -/
inductive CallResult (α : Type) where
  | ok (a : α)
  | err (msg : String)
deriving DecidableEq, Repr

/-- The reply-stage response: `chatRes.message.content` and
`chatRes.end_conversation`. -/
structure ChatReply where
  content : String
  end_conversation : Bool
deriving DecidableEq, Repr

/-- The environment of one turn: the measured recording duration, each
collaborator call's outcome — including whether the `endVoiceSession`
POST issued on playback completion resolves or rejects — and the
`performance.now()` readings taken around each stage. -/
structure TurnInputs where
  recordingDuration : ℕ
  transcribeRes : CallResult String
  chatRes : CallResult ChatReply
  ttsRes : CallResult Unit
  endSessionRes : CallResult Unit
  tStt0 : ℚ
  tStt1 : ℚ
  tLlm0 : ℚ
  tLlm1 : ℚ
  tTts0 : ℚ
  tTts1 : ℚ

/-- `Math.round(performance.now() - t0)` for a stage that started at
`t0` and finished at `t1`. -/
def roundLatency (t0 t1 : ℚ) : ℤ := round (t1 - t0)

/-- `addMessage({role:'user', content})`. -/
def userMsg (text : String) : ChatMessage := ⟨Role.user, text, none⟩

/-- `addMessage({role:'assistant', content, latency})`. -/
def assistantMsg (text : String) (lat : TurnLatency) : ChatMessage :=
  ⟨Role.assistant, text, some lat⟩

/-- `restartRecording`: fresh recorder and VAD refs, animation loop
re-armed. -/
def restartRecording (s : PipelineState) : PipelineState :=
  { s with chunks := 0, silenceStart := none, hasSpoken := false,
           recorderRecording := true, animationActive := true }

/-- `doRestart`: restart recording only in continuous mode with a live
stream and no user-requested stop. -/
def doRestart (continuous : Bool) (s : PipelineState) : PipelineState × List Ev :=
  if continuous = true ∧ s.streamActive = true ∧ s.userRequestedStop = false then
    (restartRecording s, [Ev.restartRec])
  else (s, [])

/-- The `finally` block: clear the processing flag, and restart when in
continuous mode with no pending TTS audio and no `end_conversation`. -/
def finallyBlock (continuous endConversation : Bool) (s : PipelineState) :
    PipelineState × List PipelineState × List Ev :=
  let s1 := { s with isProcessing := false }
  if continuous = true ∧ s1.ttsPlaying = false ∧ endConversation = false then
    let (s2, evs) := doRestart continuous s1
    (s2, [s1, s2], evs)
  else (s1, [s1], [])

/-- Result of running a pipeline step: the final state, the ordered
list of every state passed through (starting from the entry state), and
the events emitted. -/
structure TurnRun where
  final : PipelineState
  trace : List PipelineState
  evs : List Ev

/-- One invocation of `stopRecordingAndSend`, with the collaborator
results supplied by `inp`.  Mirrors the source: the user-stop branch;
the not-recording early return; recorder stop and (non-continuous)
stream release; the empty-chunks and too-short early restarts; then
transcribe → chat → TTS with the `catch`/`finally` handling. -/
def stopRecordingAndSend (continuous : Bool) (inp : TurnInputs) (s0 : PipelineState) :
    TurnRun :=
  if s0.userRequestedStop = true then
    let s1 := { s0 with ttsPlaying := false }
    let s2 := { s1 with recorderRecording := false }
    let s3 := { s2 with streamActive := false }
    let s4 := { s3 with isListening := false }
    let s5 := { s4 with animationActive := false, silenceStart := none,
                        hasSpoken := false, chunks := 0 }
    ⟨s5, [s0, s1, s2, s3, s4, s5], []⟩
  else if s0.recorderRecording = false then ⟨s0, [s0], []⟩
  else
    let s1 := { s0 with recorderRecording := false }
    let s2 := if continuous = false then
        { s1 with streamActive := false, isListening := false } else s1
    let s3 := { s2 with animationActive := false, silenceStart := none, hasSpoken := false }
    let savedChunks := s3.chunks
    let s4 := { s3 with chunks := 0 }
    if savedChunks = 0 then
      let (s5, evs) := doRestart continuous s4
      ⟨s5, [s0, s1, s2, s3, s4, s5], evs⟩
    else if inp.recordingDuration < MIN_RECORDING_MS then
      let (s5, evs) := doRestart continuous s4
      ⟨s5, [s0, s1, s2, s3, s4, s5], evs⟩
    else
      let s5 := { s4 with isProcessing := true, errorMsg := none }
      match inp.transcribeRes with
      | .err m =>
        let s6 := { s5 with errorMsg := some m }
        let (s7, tr, evs) := finallyBlock continuous false s6
        ⟨s7, [s0, s1, s2, s3, s4, s5, s6] ++ tr, Ev.transcribeCall :: evs⟩
      | .ok text =>
        let userText := jsTrim text
        if userText = "" then
          let s6 := { s5 with isProcessing := false }
          let (s7, evs1) := doRestart continuous s6
          let (s8, tr, evs2) := finallyBlock continuous false s7
          ⟨s8, [s0, s1, s2, s3, s4, s5, s6, s7] ++ tr,
            Ev.transcribeCall :: (evs1 ++ evs2)⟩
        else
          let s6 := { s5 with messages := s5.messages ++ [userMsg userText] }
          match inp.chatRes with
          | .err m =>
            let s7 := { s6 with errorMsg := some m }
            let (s8, tr, evs) := finallyBlock continuous false s7
            ⟨s8, [s0, s1, s2, s3, s4, s5, s6, s7] ++ tr,
              [Ev.transcribeCall, Ev.chatCall] ++ evs⟩
          | .ok reply =>
            let endConv := reply.end_conversation
            match inp.ttsRes with
            | .err m =>
              let s7 := { s6 with errorMsg := some m }
              let (s8, tr, evs) := finallyBlock continuous endConv s7
              ⟨s8, [s0, s1, s2, s3, s4, s5, s6, s7] ++ tr,
                [Ev.transcribeCall, Ev.chatCall, Ev.ttsCall (ttsSelect reply.content)] ++ evs⟩
            | .ok _ =>
              let lat : TurnLatency :=
                ⟨roundLatency inp.tStt0 inp.tStt1, roundLatency inp.tLlm0 inp.tLlm1,
                 roundLatency inp.tTts0 inp.tTts1⟩
              let s7 := { s6 with messages := s6.messages ++ [assistantMsg reply.content lat] }
              let s8 := { s7 with ttsPlaying := true }
              let (s9, tr, evs) := finallyBlock continuous endConv s8
              ⟨s9, [s0, s1, s2, s3, s4, s5, s6, s7, s8] ++ tr,
                [Ev.transcribeCall, Ev.chatCall, Ev.ttsCall (ttsSelect reply.content)] ++ evs⟩

/-- The `audio.onended` handler: release the TTS audio; then either
finalize the voice session (`end_conversation`), or in continuous mode
restart recording if the recorder is not already running.  The
finalization is `endVoiceSession().then(...)` with no catch: the stop
flag is latched and `stopRecordingAndSend` run only when the POST
resolves; on a rejection the continuation is skipped. -/
def onEnded (continuous endConversation : Bool) (inp : TurnInputs) (s : PipelineState) :
    TurnRun :=
  let s1 := { s with ttsPlaying := false }
  if endConversation = true then
    match inp.endSessionRes with
    | .ok _ =>
      let s2 := { s1 with userRequestedStop := true }
      let r := stopRecordingAndSend continuous inp s2
      ⟨r.final, s1 :: s2 :: r.trace, Ev.endSessionCall :: r.evs⟩
    | .err _ => ⟨s1, [s1], [Ev.endSessionCall]⟩
  else if continuous = true then
    if s1.recorderRecording = false then
      let (s2, evs) := doRestart continuous s1
      ⟨s2, [s1, s2], evs⟩
    else ⟨s1, [s1], []⟩
  else ⟨s1, [s1], []⟩

/-- A listening-state snapshot: recorder and stream active, animation
loop running, some audio chunks buffered, nothing playing, no stop
requested, empty history. -/
def listeningState : PipelineState :=
  { recorderRecording := true, streamActive := true, isListening := true,
    animationActive := true, silenceStart := none, hasSpoken := true,
    chunks := 3, ttsPlaying := false, userRequestedStop := false,
    isProcessing := false, errorMsg := none, messages := [] }

/-- A fully successful set of collaborator results with monotone stage
clocks. -/
def sampleInputs : TurnInputs :=
  { recordingDuration := 1000, transcribeRes := .ok "hi there",
    chatRes := .ok { content := "hello", end_conversation := false },
    ttsRes := .ok (), endSessionRes := .ok (), tStt0 := 0, tStt1 := 10,
    tLlm0 := 10, tLlm1 := 25, tTts0 := 25, tTts1 := 30 }

/-- A playback snapshot in continuous mode: the recorder is stopped,
the stream is live, TTS audio is playing, no stop requested. -/
def playingState : PipelineState :=
  { recorderRecording := false, streamActive := true, isListening := true,
    animationActive := false, silenceStart := none, hasSpoken := false,
    chunks := 0, ttsPlaying := true, userRequestedStop := false,
    isProcessing := false, errorMsg := none, messages := [] }

/-- A turn environment identical to `sampleInputs` except that the
reply ends the conversation and the `endVoiceSession` POST rejects. -/
def endFailInputs : TurnInputs :=
  { recordingDuration := 1000, transcribeRes := .ok "hi there",
    chatRes := .ok { content := "bye", end_conversation := true },
    ttsRes := .ok (), endSessionRes := .err "network error",
    tStt0 := 0, tStt1 := 10, tLlm0 := 10, tLlm1 := 25, tTts0 := 25, tTts1 := 30 }

/-- C2 (counterexample).  When the `endVoiceSession` POST rejects after
playback of an `end_conversation` reply completes, the `.then`
continuation never runs (there is no catch): the stop flag stays
unlatched and the media stream stays live — capture is not released
and the pipeline does not reach the terminated state, contrary to the
claim's unconditional wording. -/
theorem end_conversation_claim_counterexample :
    (onEnded true true endFailInputs playingState).final.streamActive = true ∧
    (onEnded true true endFailInputs playingState).final.userRequestedStop = false ∧
    (onEnded true true endFailInputs playingState).final.isListening = true := by
  decide

/-- C2 (amended).  When playback of a reply with `end_conversation =
true` completes naturally and the `endVoiceSession` request resolves,
the pipeline terminates: the voice-session end signal is sent, the
recorder, media stream, and TTS audio are all released, listening is
off, the stop flag is latched, recording is never restarted during the
handler, and any later `doRestart` — the only way a recording is ever
started short of an explicit new `startListening` — is a no-op, even
in continuous mode.  If the request rejects, the `.then` cleanup is
skipped: the stop flag is not latched and the stream is not released
(no Listening restart is issued by the handler either). -/
theorem end_conversation_terminates (continuous : Bool) (inp : TurnInputs)
    (s : PipelineState) (hok : inp.endSessionRes = .ok ()) :
    (onEnded continuous true inp s).final.recorderRecording = false ∧
    (onEnded continuous true inp s).final.streamActive = false ∧
    (onEnded continuous true inp s).final.isListening = false ∧
    (onEnded continuous true inp s).final.ttsPlaying = false ∧
    (onEnded continuous true inp s).final.userRequestedStop = true ∧
    Ev.endSessionCall ∈ (onEnded continuous true inp s).evs ∧
    Ev.restartRec ∉ (onEnded continuous true inp s).evs ∧
    ∀ c, doRestart c (onEnded continuous true inp s).final
      = ((onEnded continuous true inp s).final, []) := by
  simp [onEnded, hok, stopRecordingAndSend, doRestart, restartRecording]

/-- C2 (witness): termination at a concrete playback state whose end
request resolves. -/
theorem end_conversation_terminates_witness :
    (onEnded true true sampleInputs playingState).final.recorderRecording = false ∧
    (onEnded true true sampleInputs playingState).final.streamActive = false ∧
    (onEnded true true sampleInputs playingState).final.isListening = false ∧
    (onEnded true true sampleInputs playingState).final.ttsPlaying = false ∧
    (onEnded true true sampleInputs playingState).final.userRequestedStop = true ∧
    Ev.endSessionCall ∈ (onEnded true true sampleInputs playingState).evs ∧
    Ev.restartRec ∉ (onEnded true true sampleInputs playingState).evs ∧
    ∀ c, doRestart c (onEnded true true sampleInputs playingState).final
      = ((onEnded true true sampleInputs playingState).final, []) :=
  end_conversation_terminates true sampleInputs playingState rfl

/-- Capture and playback are not simultaneous in a state. -/
def mutex (s : PipelineState) : Prop :=
  (s.recorderRecording && s.ttsPlaying) = false

lemma mutex_imp {s : PipelineState} (h : mutex s) :
    s.recorderRecording = true → s.ttsPlaying = false := by
  intro hr
  revert h
  unfold mutex
  rw [hr]
  cases s.ttsPlaying <;> simp

set_option maxHeartbeats 3200000 in
/-- C3.  Except through the explicit barge-in path of `checkVolume`,
capture and playback are never simultaneous: if the recorder and the
TTS audio are not both active on entry, then at every intermediate
state of `stopRecordingAndSend` and of the playback-completion handler
`onEnded` the recorder is not recording while TTS audio is held — the
TTS audio is created only after the recorder has stopped, and a new
recording is started (`doRestart`) only at states with no TTS audio,
i.e. in continuous mode only after the `ended` event has cleared it. -/
theorem capture_playback_exclusive (continuous ec : Bool) (inp : TurnInputs)
    (s0 : PipelineState) (h : mutex s0) :
    (∀ st ∈ (stopRecordingAndSend continuous inp s0).trace, mutex st) ∧
    (∀ st ∈ (onEnded continuous ec inp s0).trace, mutex st) := by
  have hmain : ∀ c : Bool, ∀ s : PipelineState, mutex s →
      ∀ st ∈ (stopRecordingAndSend c inp s).trace, mutex st := by
    intro c s hs
    cases hstop : s.userRequestedStop with
    | true =>
      simp [stopRecordingAndSend, hstop, mutex, List.forall_mem_cons]
      exact mutex_imp hs
    | false =>
      cases hrec : s.recorderRecording with
      | false =>
        simp [stopRecordingAndSend, hstop, hrec, mutex, List.forall_mem_cons]
      | true =>
        have htts : s.ttsPlaying = false := by
          revert hs; unfold mutex; rw [hrec]; cases s.ttsPlaying <;> simp
        cases c <;>
          by_cases hch : s.chunks = 0 <;>
          by_cases hdur : inp.recordingDuration < MIN_RECORDING_MS <;>
          rcases htr : inp.transcribeRes with ⟨text⟩ | ⟨m1⟩ <;>
          all_goals try (by_cases hempty : jsTrim text = "")
        all_goals try (rcases hchat : inp.chatRes with ⟨reply⟩ | ⟨m2⟩)
        all_goals try (cases hecv : reply.end_conversation)
        all_goals try (rcases htts2 : inp.ttsRes with ⟨u⟩ | ⟨m3⟩)
        all_goals simp_all [stopRecordingAndSend, finallyBlock, doRestart,
          restartRecording, mutex, List.forall_mem_cons, List.forall_mem_append]
        all_goals (try split_ifs)
        all_goals (try simp_all)
  refine ⟨hmain continuous s0 h, ?_⟩
  cases ec with
  | true =>
    intro st hst
    rcases hes : inp.endSessionRes with u | m
    · simp only [onEnded, if_pos rfl, hes] at hst
      rcases List.mem_cons.mp hst with rfl | hst
      · simp [mutex]
      · rcases List.mem_cons.mp hst with rfl | hst
        · simp [mutex]
        · exact hmain continuous _ (by simp [mutex]) st hst
    · simp only [onEnded, if_pos rfl, hes] at hst
      have hs1 : st = ({ s0 with ttsPlaying := false } : PipelineState) := by
        simpa using hst
      subst hs1
      simp [mutex]
  | false =>
    cases continuous <;>
      cases hrec : s0.recorderRecording <;>
      simp_all [onEnded, doRestart, restartRecording, mutex,
        List.forall_mem_cons, List.forall_mem_append] <;>
      (try split_ifs) <;> simp_all

/-- C3 (witness): the exclusivity invariant on a concrete successful
continuous-mode turn. -/
theorem capture_playback_exclusive_witness :
    (∀ st ∈ (stopRecordingAndSend true sampleInputs listeningState).trace, mutex st) ∧
    (∀ st ∈ (onEnded true false sampleInputs listeningState).trace, mutex st) :=
  capture_playback_exclusive true false sampleInputs listeningState rfl

/-- C4.  With barge-in enabled, a frame whose RMS is above the barge-in
threshold observed while TTS audio is playing cancels playback
immediately; and such a frame never simultaneously ends the utterance
(its RMS is above the silence threshold), so the volume loop reschedules
and capture continues — the session keeps listening. -/
theorem barge_in_cancels_playback (s : VadState) (f : Frame)
    (hp : s.ttsPlaying = true) (hr : BARGE_IN_RMS_THRESHOLD < f.rms) :
    ((checkVolume true s f).1).ttsPlaying = false ∧ (checkVolume true s f).2 = false := by
  have hsil : ¬ f.rms < SILENCE_RMS_THRESHOLD := by
    have hle : SILENCE_RMS_THRESHOLD ≤ BARGE_IN_RMS_THRESHOLD := by decide
    exact not_lt.mpr (le_of_lt (lt_of_le_of_lt hle hr))
  constructor
  · unfold checkVolume
    by_cases h2 : SPEECH_RMS_THRESHOLD < f.rms <;>
      rcases hss : s.silenceStart with _ | st <;>
      simp [hp, hr, h2, hss] <;> split_ifs <;> simp_all
  · rw [← Bool.not_eq_true]
    rw [checkVolume_fired_iff]
    rintro ⟨-, -, hs, -⟩
    exact hsil hs

/-- C4 (witness): a concrete barge-in frame during playback. -/
theorem barge_in_cancels_playback_witness :
    ((checkVolume true
        { hasSpoken := false, silenceStart := none, recordingStart := 0, ttsPlaying := true }
        ⟨mkRat 5 100, 500⟩).1).ttsPlaying = false ∧
    (checkVolume true
        { hasSpoken := false, silenceStart := none, recordingStart := 0, ttsPlaying := true }
        ⟨mkRat 5 100, 500⟩).2 = false :=
  barge_in_cancels_playback _ _ (by decide) (by decide)

/-- C7 (counterexample).  In non-continuous mode an empty transcript is
silently discarded — no message, no error — but the pipeline does not
return to Listening: the recorder is stopped, the stream released, and
listening is off (Idle), with no recording restart. -/
theorem empty_transcript_claim_counterexample :
    (stopRecordingAndSend false
        { sampleInputs with transcribeRes := .ok "   " } listeningState).final.messages = [] ∧
    (stopRecordingAndSend false
        { sampleInputs with transcribeRes := .ok "   " } listeningState).final.errorMsg = none ∧
    (stopRecordingAndSend false
        { sampleInputs with transcribeRes := .ok "   " } listeningState).final.recorderRecording
      = false ∧
    (stopRecordingAndSend false
        { sampleInputs with transcribeRes := .ok "   " } listeningState).final.isListening
      = false ∧
    (stopRecordingAndSend false
        { sampleInputs with transcribeRes := .ok "   " } listeningState).final.streamActive
      = false ∧
    Ev.restartRec ∉ (stopRecordingAndSend false
        { sampleInputs with transcribeRes := .ok "   " } listeningState).evs := by
  decide

/-- C7 (amended).  A captured utterance whose transcript is empty after
trimming is silently discarded: no message is appended, no reply or
synthesis request is issued, no error is surfaced; the pipeline resumes
Listening in continuous mode, and goes to Idle (capture released) in
non-continuous mode. -/
theorem empty_transcript_discarded (continuous : Bool) (inp : TurnInputs)
    (s0 : PipelineState) (text : String)
    (hstop : s0.userRequestedStop = false) (hrec : s0.recorderRecording = true)
    (hstream : s0.streamActive = true) (hch : s0.chunks ≠ 0)
    (hdur : ¬ inp.recordingDuration < MIN_RECORDING_MS)
    (htr : inp.transcribeRes = .ok text) (hempty : jsTrim text = "") :
    (stopRecordingAndSend continuous inp s0).final.messages = s0.messages ∧
    (stopRecordingAndSend continuous inp s0).final.errorMsg = none ∧
    Ev.chatCall ∉ (stopRecordingAndSend continuous inp s0).evs ∧
    (∀ t, Ev.ttsCall t ∉ (stopRecordingAndSend continuous inp s0).evs) ∧
    (continuous = true → (stopRecordingAndSend continuous inp s0).final.recorderRecording = true ∧
      (stopRecordingAndSend continuous inp s0).final.isListening = s0.isListening ∧
      (stopRecordingAndSend continuous inp s0).final.streamActive = true) ∧
    (continuous = false → (stopRecordingAndSend continuous inp s0).final.recorderRecording = false ∧
      (stopRecordingAndSend continuous inp s0).final.isListening = false ∧
      (stopRecordingAndSend continuous inp s0).final.streamActive = false ∧
      Ev.restartRec ∉ (stopRecordingAndSend continuous inp s0).evs) := by
  cases continuous <;>
    simp_all [stopRecordingAndSend, finallyBlock, doRestart, restartRecording] <;>
    (try split_ifs) <;> (try simp_all) <;> omega

/-- C7 (witness): a concrete whitespace-only transcript in continuous
mode. -/
theorem empty_transcript_discarded_witness :
    (stopRecordingAndSend true
        { sampleInputs with transcribeRes := .ok "  " } listeningState).final.messages
      = listeningState.messages ∧
    (stopRecordingAndSend true
        { sampleInputs with transcribeRes := .ok "  " } listeningState).final.errorMsg = none ∧
    Ev.chatCall ∉ (stopRecordingAndSend true
        { sampleInputs with transcribeRes := .ok "  " } listeningState).evs ∧
    (∀ t, Ev.ttsCall t ∉ (stopRecordingAndSend true
        { sampleInputs with transcribeRes := .ok "  " } listeningState).evs) ∧
    (true = true → (stopRecordingAndSend true
        { sampleInputs with transcribeRes := .ok "  " } listeningState).final.recorderRecording = true ∧
      (stopRecordingAndSend true
        { sampleInputs with transcribeRes := .ok "  " } listeningState).final.isListening
        = listeningState.isListening ∧
      (stopRecordingAndSend true
        { sampleInputs with transcribeRes := .ok "  " } listeningState).final.streamActive = true) ∧
    (true = false → (stopRecordingAndSend true
        { sampleInputs with transcribeRes := .ok "  " } listeningState).final.recorderRecording = false ∧
      (stopRecordingAndSend true
        { sampleInputs with transcribeRes := .ok "  " } listeningState).final.isListening = false ∧
      (stopRecordingAndSend true
        { sampleInputs with transcribeRes := .ok "  " } listeningState).final.streamActive = false ∧
      Ev.restartRec ∉ (stopRecordingAndSend true
        { sampleInputs with transcribeRes := .ok "  " } listeningState).evs) :=
  empty_transcript_discarded true _ listeningState "  " rfl rfl rfl (by decide) (by decide)
    rfl (by decide)

/-- C8 (counterexample).  When the reply call fails after transcription
succeeded, the user message appended before the failure stays in the
history: the partial turn's contents are not discarded. -/
theorem collaborator_failure_claim_counterexample :
    (stopRecordingAndSend true
        { sampleInputs with chatRes := .err "boom" } listeningState).final.messages
      = [userMsg "hi there"] ∧
    ([userMsg "hi there"] : List ChatMessage) ≠ listeningState.messages ∧
    (stopRecordingAndSend true
        { sampleInputs with chatRes := .err "boom" } listeningState).final.errorMsg
      = some "boom" := by
  decide

/-- C8 (amended).  A failed transcription, reply, or synthesis call
aborts the turn before any assistant message is appended, surfaces
exactly one error, and leaves all previously appended messages
unchanged; a user message already appended before a reply or synthesis
failure remains in the history.  The pipeline resumes Listening in
continuous mode — except that a synthesis failure after a reply that
set `end_conversation` does not restart recording — and goes to Idle in
non-continuous mode. -/
theorem collaborator_failure_aborts (continuous : Bool) (inp : TurnInputs)
    (s0 : PipelineState)
    (hstop : s0.userRequestedStop = false) (hrec : s0.recorderRecording = true)
    (hstream : s0.streamActive = true) (htts : s0.ttsPlaying = false)
    (hch : s0.chunks ≠ 0)
    (hdur : ¬ inp.recordingDuration < MIN_RECORDING_MS) :
    (∀ m, inp.transcribeRes = .err m →
      (stopRecordingAndSend continuous inp s0).final.errorMsg = some m ∧
      (stopRecordingAndSend continuous inp s0).final.messages = s0.messages ∧
      (continuous = true → (stopRecordingAndSend continuous inp s0).final.recorderRecording = true) ∧
      (continuous = false → (stopRecordingAndSend continuous inp s0).final.recorderRecording = false ∧
        (stopRecordingAndSend continuous inp s0).final.isListening = false)) ∧
    (∀ text m, inp.transcribeRes = .ok text → jsTrim text ≠ "" → inp.chatRes = .err m →
      (stopRecordingAndSend continuous inp s0).final.errorMsg = some m ∧
      (stopRecordingAndSend continuous inp s0).final.messages
        = s0.messages ++ [userMsg (jsTrim text)] ∧
      (continuous = true → (stopRecordingAndSend continuous inp s0).final.recorderRecording = true) ∧
      (continuous = false → (stopRecordingAndSend continuous inp s0).final.recorderRecording = false ∧
        (stopRecordingAndSend continuous inp s0).final.isListening = false)) ∧
    (∀ text reply m, inp.transcribeRes = .ok text → jsTrim text ≠ "" →
      inp.chatRes = .ok reply → inp.ttsRes = .err m →
      (stopRecordingAndSend continuous inp s0).final.errorMsg = some m ∧
      (stopRecordingAndSend continuous inp s0).final.messages
        = s0.messages ++ [userMsg (jsTrim text)] ∧
      (continuous = true → reply.end_conversation = false →
        (stopRecordingAndSend continuous inp s0).final.recorderRecording = true) ∧
      (continuous = true → reply.end_conversation = true →
        (stopRecordingAndSend continuous inp s0).final.recorderRecording = false) ∧
      (continuous = false → (stopRecordingAndSend continuous inp s0).final.recorderRecording = false ∧
        (stopRecordingAndSend continuous inp s0).final.isListening = false)) := by
  refine ⟨?_, ?_, ?_⟩
  · intro m htr
    cases continuous <;>
      simp_all [stopRecordingAndSend, finallyBlock, doRestart, restartRecording] <;>
      (try split_ifs) <;> (try simp_all) <;> omega
  · intro text m htr hne hchat
    cases continuous <;>
      simp_all [stopRecordingAndSend, finallyBlock, doRestart, restartRecording] <;>
      (try split_ifs) <;> (try simp_all) <;> omega
  · intro text reply m htr hne hchat htts
    cases hecv : reply.end_conversation <;> cases continuous <;>
      simp_all [stopRecordingAndSend, finallyBlock, doRestart, restartRecording] <;>
      (try split_ifs) <;> (try simp_all) <;> omega

/-- C8 (witness): a concrete reply-stage failure in continuous mode. -/
theorem collaborator_failure_aborts_witness :
    (stopRecordingAndSend true
        { sampleInputs with chatRes := .err "boom" } listeningState).final.errorMsg
      = some "boom" ∧
    (stopRecordingAndSend true
        { sampleInputs with chatRes := .err "boom" } listeningState).final.messages
      = listeningState.messages ++ [userMsg (jsTrim "hi there")] :=
  ⟨((collaborator_failure_aborts true _ listeningState rfl rfl rfl rfl (by decide)
      (by decide)).2.1 "hi there" "boom" rfl (by decide) rfl).1,
   ((collaborator_failure_aborts true _ listeningState rfl rfl rfl rfl (by decide)
      (by decide)).2.1 "hi there" "boom" rfl (by decide) rfl).2.1⟩

/-- C10.  A whitespace-only input to `stripMarkdownForTTS` is returned
unchanged; a non-empty assistant reply never produces an empty
synthesis request; and on the synthesis path the text passed to
`textToSpeech` is `stripMarkdownForTTS(assistant_text)` when that
result is non-empty and the original `assistant_text` otherwise
(`plainForTTS || assistantContent`). -/
theorem tts_text_selection :
    (∀ s : String, jsTrim s = "" → stripMarkdownForTTS s = s) ∧
    (∀ content : String, content ≠ "" → ttsSelect content ≠ "") ∧
    (∀ content : String, ttsSelect content =
      if stripMarkdownForTTS content = "" then content else stripMarkdownForTTS content) ∧
    (∀ (continuous : Bool) (inp : TurnInputs) (s0 : PipelineState) (text : String)
        (reply : ChatReply),
      s0.userRequestedStop = false → s0.recorderRecording = true →
      s0.chunks ≠ 0 → ¬ inp.recordingDuration < MIN_RECORDING_MS →
      inp.transcribeRes = .ok text → jsTrim text ≠ "" → inp.chatRes = .ok reply →
      Ev.ttsCall (ttsSelect reply.content) ∈ (stopRecordingAndSend continuous inp s0).evs) := by
  refine ⟨?_, ?_, ?_, ?_⟩
  · intro s h
    unfold stripMarkdownForTTS
    rw [if_pos h]
  · intro content h
    by_cases hp : stripMarkdownForTTS content = "" <;> simp_all [ttsSelect]
  · intro content
    rfl
  · intro continuous inp s0 text reply hstop hrec hch hdur htr hne hchat
    rcases htts : inp.ttsRes with u | m <;>
      cases continuous <;>
      simp_all [stopRecordingAndSend, finallyBlock, doRestart, restartRecording] <;>
      (try split_ifs) <;> (try simp_all) <;> omega

/-- C10 (witness): the selection at concrete inputs — a markdown reply,
a reply that strips to empty, and a whitespace-only string. -/
theorem tts_text_selection_witness :
    stripMarkdownForTTS "  " = "  " ∧
    ttsSelect "```x```" ≠ "" ∧
    Ev.ttsCall (ttsSelect "hello")
      ∈ (stopRecordingAndSend true sampleInputs listeningState).evs :=
  ⟨tts_text_selection.1 "  " (by decide),
   tts_text_selection.2.1 "```x```" (by decide),
   tts_text_selection.2.2.2 true sampleInputs listeningState "hi there"
     { content := "hello", end_conversation := false } rfl rfl (by decide) (by decide)
     rfl (by decide) rfl⟩

/-! ## Live turn fan-out (`VoiceCallDetail.tsx`, `handleLiveMessage`) -/

/-- The payload of a live event, as read by `handleLiveMessage`
(`payload.user_text as string`, `payload.stt_ms as number`, …, each
possibly absent). -/
structure LivePayload where
  user_text : Option String
  assistant_text : Option String
  stt_ms : Option ℤ
  llm_ms : Option ℤ
  tts_ms : Option ℤ
deriving DecidableEq, Repr

/-- The `event` discriminator of a live event. -/
inductive LiveEventKind where
  | stt_done
  | llm_done
  | tts_start
  | tts_done
deriving DecidableEq, Repr

/-- One live event received on the per-call WebSocket. -/
structure LiveEvent where
  kind : LiveEventKind
  payload : LivePayload
deriving DecidableEq, Repr

/-- The in-progress turn shown while the pipeline runs
(`CurrentTurnPartial`). -/
structure CurrentTurnPartial where
  user_text : Option String
  assistant_text : Option String
  stt_ms : Option ℤ
  llm_ms : Option ℤ
  tts_ms : Option ℤ
deriving DecidableEq, Repr

/-- The empty partial (`{}` — also what spreading a null partial
produces). -/
def emptyPartial : CurrentTurnPartial := ⟨none, none, none, none, none⟩

/-- A finalized turn row (`VoiceCallTurn`). -/
structure VoiceCallTurn where
  user_text : String
  assistant_text : String
  stt_ms : ℤ
  llm_ms : ℤ
  tts_ms : ℤ
deriving DecidableEq, Repr

/-- The component state handled by `handleLiveMessage`: the finalized
`turns` list and the optional `currentTurn` partial. -/
structure LiveViewState where
  turns : List VoiceCallTurn
  currentTurn : Option CurrentTurnPartial
deriving DecidableEq, Repr

/-- The `handleLiveMessage` callback: `stt_done` and `llm_done` merge
text and latency into the partial (creating it if absent); `tts_start`
ensures a partial exists; `tts_done` completes the partial — defaulting
absent fields — appends it to `turns`, and clears the partial (or does
nothing except clear when no partial exists). -/
def handleLiveMessage (s : LiveViewState) (ev : LiveEvent) : LiveViewState :=
  match ev.kind with
  | .stt_done =>
    let user_text := ev.payload.user_text.getD ""
    let stt_ms := ev.payload.stt_ms.getD 0
    let prev := s.currentTurn.getD emptyPartial
    { s with
      currentTurn := some ({ prev with user_text := some user_text, stt_ms := some stt_ms }) }
  | .llm_done =>
    let assistant_text := ev.payload.assistant_text.getD ""
    let llm_ms := ev.payload.llm_ms.getD 0
    let prev := s.currentTurn.getD emptyPartial
    { s with
      currentTurn := some ({ prev with assistant_text := some assistant_text, llm_ms := some llm_ms }) }
  | .tts_start =>
    match s.currentTurn with
    | some prev => { s with currentTurn := some prev }
    | none => { s with currentTurn := some emptyPartial }
  | .tts_done =>
    let tts_ms := ev.payload.tts_ms.getD 0
    match s.currentTurn with
    | none => { s with currentTurn := none }
    | some prev =>
      let full : VoiceCallTurn :=
        ⟨prev.user_text.getD "", prev.assistant_text.getD "",
         prev.stt_ms.getD 0, prev.llm_ms.getD 0, tts_ms⟩
      { s with turns := s.turns ++ [full], currentTurn := none }

/-- Process a stream of live events in arrival order. -/
def processLiveEvents (s : LiveViewState) (evs : List LiveEvent) : LiveViewState :=
  evs.foldl handleLiveMessage s

/-- An absent duration defaults to `0`; a present one must be
non-negative. -/
def optNonneg (o : Option ℤ) : Prop := 0 ≤ o.getD 0

/-- All durations of a payload are non-negative (the backend reports
elapsed milliseconds; spec: every latency field is ≥ 0). -/
def payloadNonneg (p : LivePayload) : Prop :=
  optNonneg p.stt_ms ∧ optNonneg p.llm_ms ∧ optNonneg p.tts_ms

/-- All durations of a partial turn are non-negative. -/
def partialNonneg (c : CurrentTurnPartial) : Prop :=
  optNonneg c.stt_ms ∧ optNonneg c.llm_ms ∧ optNonneg c.tts_ms

/-- All latency fields of a finalized turn are non-negative. -/
def turnNonneg (t : VoiceCallTurn) : Prop :=
  0 ≤ t.stt_ms ∧ 0 ≤ t.llm_ms ∧ 0 ≤ t.tts_ms

lemma handleLiveMessage_turns (s : LiveViewState) (ev : LiveEvent) :
    ∃ u, (handleLiveMessage s ev).turns = s.turns ++ u := by
  cases hk : ev.kind <;> rcases hc : s.currentTurn with _ | prev <;>
    simp [handleLiveMessage, hk, hc]

lemma processLiveEvents_cons (s : LiveViewState) (ev : LiveEvent) (evs : List LiveEvent) :
    processLiveEvents s (ev :: evs) = processLiveEvents (handleLiveMessage s ev) evs := rfl

lemma processLiveEvents_turns (evs : List LiveEvent) (s : LiveViewState) :
    ∃ u, (processLiveEvents s evs).turns = s.turns ++ u := by
  induction evs generalizing s with
  | nil => exact ⟨[], by simp [processLiveEvents]⟩
  | cons ev evs ih =>
    obtain ⟨u1, h1⟩ := handleLiveMessage_turns s ev
    obtain ⟨u2, h2⟩ := ih (handleLiveMessage s ev)
    refine ⟨u1 ++ u2, ?_⟩
    rw [processLiveEvents_cons, h2, h1, List.append_assoc]

lemma handleLiveMessage_nonneg (s : LiveViewState) (ev : LiveEvent)
    (hp : payloadNonneg ev.payload)
    (ht : ∀ t ∈ s.turns, turnNonneg t)
    (hc : ∀ c, s.currentTurn = some c → partialNonneg c) :
    (∀ t ∈ (handleLiveMessage s ev).turns, turnNonneg t) ∧
    (∀ c, (handleLiveMessage s ev).currentTurn = some c → partialNonneg c) := by
  obtain ⟨hp1, hp2, hp3⟩ := hp
  cases hk : ev.kind <;> rcases hcc : s.currentTurn with _ | prev <;>
    simp_all [handleLiveMessage, partialNonneg, turnNonneg, optNonneg, emptyPartial]
  rintro t (hmem | rfl)
  · exact ht t hmem
  · exact ⟨hc.1, hc.2.1, hp3⟩

lemma processLiveEvents_nonneg (evs : List LiveEvent) (s : LiveViewState)
    (hall : ∀ e ∈ evs, payloadNonneg e.payload)
    (ht : ∀ t ∈ s.turns, turnNonneg t)
    (hc : ∀ c, s.currentTurn = some c → partialNonneg c) :
    ∀ t ∈ (processLiveEvents s evs).turns, turnNonneg t := by
  induction evs generalizing s with
  | nil => simpa [processLiveEvents] using ht
  | cons e evs ih =>
    obtain ⟨ht', hc'⟩ := handleLiveMessage_nonneg s e (hall e (by simp)) ht hc
    rw [processLiveEvents_cons]
    exact ih _ (fun e' he' => hall e' (by simp [he'])) ht' hc'

lemma roundLatency_nonneg (t0 t1 : ℚ) (h : t0 ≤ t1) : 0 ≤ roundLatency t0 t1 := by
  unfold roundLatency
  rw [round_eq]
  refine Int.le_floor.mpr ?_
  push_cast
  linarith

/-- C9.  Finalized turns are appended in completion order — processing
live events only ever appends to the `turns` list, one turn per
`tts_done`, so existing turns are never mutated or reordered; all
latency fields of finalized turns are non-negative when the event
payloads carry non-negative durations; and in the browser pipeline the
assistant message of a successful turn records the three stage
latencies, each non-negative whenever the stage clocks are monotone. -/
theorem turn_finalization :
    (∀ (s : LiveViewState) (evs : List LiveEvent),
      ∃ u, (processLiveEvents s evs).turns = s.turns ++ u) ∧
    (∀ (s : LiveViewState) (evs : List LiveEvent),
      (∀ e ∈ evs, payloadNonneg e.payload) →
      (∀ t ∈ s.turns, turnNonneg t) →
      (∀ c, s.currentTurn = some c → partialNonneg c) →
      ∀ t ∈ (processLiveEvents s evs).turns, turnNonneg t) ∧
    (∀ (continuous : Bool) (inp : TurnInputs) (s0 : PipelineState) (text : String)
        (reply : ChatReply),
      s0.userRequestedStop = false → s0.recorderRecording = true →
      s0.chunks ≠ 0 → ¬ inp.recordingDuration < MIN_RECORDING_MS →
      inp.transcribeRes = .ok text → jsTrim text ≠ "" → inp.chatRes = .ok reply →
      inp.ttsRes = .ok () →
      inp.tStt0 ≤ inp.tStt1 → inp.tLlm0 ≤ inp.tLlm1 → inp.tTts0 ≤ inp.tTts1 →
      (stopRecordingAndSend continuous inp s0).final.messages
        = s0.messages ++ [userMsg (jsTrim text),
            assistantMsg reply.content
              ⟨roundLatency inp.tStt0 inp.tStt1, roundLatency inp.tLlm0 inp.tLlm1,
               roundLatency inp.tTts0 inp.tTts1⟩] ∧
      0 ≤ roundLatency inp.tStt0 inp.tStt1 ∧ 0 ≤ roundLatency inp.tLlm0 inp.tLlm1 ∧
      0 ≤ roundLatency inp.tTts0 inp.tTts1) := by
  refine ⟨fun s evs => processLiveEvents_turns evs s,
    fun s evs h1 h2 h3 => processLiveEvents_nonneg evs s h1 h2 h3, ?_⟩
  intro continuous inp s0 text reply hstop hrec hch hdur htr hne hchat htts h1 h2 h3
  refine ⟨?_, roundLatency_nonneg _ _ h1, roundLatency_nonneg _ _ h2,
    roundLatency_nonneg _ _ h3⟩
  cases hecv : reply.end_conversation <;> cases continuous <;>
    simp_all [stopRecordingAndSend, finallyBlock, doRestart, restartRecording,
      assistantMsg, userMsg] <;>
    (try split_ifs) <;> (try simp_all) <;> omega

/-- The initial live view: no turns, no partial. -/
def liveInit : LiveViewState := { turns := [], currentTurn := none }

/-- A concrete live-event stream for one turn. -/
def sampleLiveEvents : List LiveEvent :=
  [⟨.stt_done, ⟨some "hi", none, some 5, none, none⟩⟩,
   ⟨.llm_done, ⟨none, some "yo", none, some 6, none⟩⟩,
   ⟨.tts_done, ⟨none, none, none, none, some 7⟩⟩]

/-- C9 (witness): the three parts at concrete inputs. -/
theorem turn_finalization_witness :
    (∃ u, (processLiveEvents liveInit sampleLiveEvents).turns = liveInit.turns ++ u) ∧
    (∀ t ∈ (processLiveEvents liveInit sampleLiveEvents).turns, turnNonneg t) ∧
    ((stopRecordingAndSend true sampleInputs listeningState).final.messages
      = listeningState.messages ++ [userMsg (jsTrim "hi there"),
          assistantMsg "hello"
            ⟨roundLatency 0 10, roundLatency 10 25, roundLatency 25 30⟩] ∧
      0 ≤ roundLatency 0 10 ∧ 0 ≤ roundLatency 10 25 ∧ 0 ≤ roundLatency 25 30) :=
  ⟨turn_finalization.1 liveInit sampleLiveEvents,
   turn_finalization.2.1 liveInit sampleLiveEvents
     (by simp [sampleLiveEvents, payloadNonneg, optNonneg]) (by simp [liveInit])
     (fun c h => Option.noConfusion h),
   turn_finalization.2.2 true sampleInputs listeningState "hi there"
     { content := "hello", end_conversation := false } rfl rfl (by decide) (by decide)
     rfl (by decide) rfl rfl (by decide) (by decide) (by decide)⟩
